import Mathlib

/-!
A shallow embedding of the accessible-route-optimizer core
(`src/accessibility.py` and `src/routing_engine.py`) and proofs of the
specification claims about it.

Modelling conventions:
* Python dictionaries of boolean accessibility attributes become
  association lists `List (String × Bool)`, with `pget` embedding
  `dict.get(key, default)`.
* A networkx `Graph` becomes a `Graph` structure holding the node list and
  the edge list; an edge record keeps `travel_time` (as `ℚ`), `route_id`
  and its boolean flags.  The networkx class invariant that every edge
  endpoint is a node is the predicate `WellFormed`; the data-model rule
  that a pair of stops carries at most one segment is `NoDupPairs`.
* `nx.shortest_path_length(g, a, b, weight := travel_time)` is Dijkstra
  over positive weights, i.e. the minimum total weight over simple paths
  from `a` to `b`; it is embedded as `shortest_path_length`, the minimum
  of `walkTime` over an exhaustive enumeration of duplicate-free walks.
  `nx.NodeNotFound` / `nx.NetworkXNoPath` become the `none` results of the
  membership guard and of the empty minimum.
* Python functions that catch their exceptions and return a result
  dictionary become total Lean functions returning `RouteResult`.
-/

namespace ARO

/-- A stop's accessibility profile: the boolean attributes present for the
stop (embedding of the per-stop Python dict). -/
abbrev Profile := List (String × Bool)

/-- Embedding of Python `d.get(key, default)` on a boolean attribute dict. -/
def pget (pd : Profile) (key : String) (default : Bool) : Bool :=
  match pd.lookup key with
  | some b => b
  | none => default

/-- The accessibility metadata: a map from stop name to profile
(embedding of `accessibility_data`). -/
abbrev AccessibilityData := List (String × Profile)

/-- `accessibility_data.get(stop, {})` from `meets_requirements` and
`get_accessibility_score`. -/
def profileOf (acc : AccessibilityData) (stop : String) : Profile :=
  (acc.lookup stop).getD []

/-- `AccessibilityFilter._check_wheelchair_accessible`. -/
def check_wheelchair_accessible (pd : Profile) : Bool :=
  pget pd "wheelchair_accessible" false

/-- `AccessibilityFilter._check_no_stairs`. -/
def check_no_stairs (pd : Profile) : Bool :=
  let has_stairs := pget pd "has_stairs" true
  let has_alternative := pget pd "has_elevator" false || pget pd "has_ramp" false
  !has_stairs || has_alternative

/-- `AccessibilityFilter._check_working_elevator`. -/
def check_working_elevator (pd : Profile) : Bool :=
  let has_elevator := pget pd "has_elevator" false
  let elevator_working := pget pd "elevator_working" true
  has_elevator && elevator_working

/-- `AccessibilityFilter._check_low_floor_vehicle`. -/
def check_low_floor_vehicle (pd : Profile) : Bool :=
  pget pd "low_floor_service" false

/-- `AccessibilityFilter._check_audio_announcements`. -/
def check_audio_announcements (pd : Profile) : Bool :=
  pget pd "audio_announcements" false

/-- `AccessibilityFilter._check_visual_displays`. -/
def check_visual_displays (pd : Profile) : Bool :=
  pget pd "visual_displays" false

/-- `AccessibilityFilter._check_tactile_guidance`. -/
def check_tactile_guidance (pd : Profile) : Bool :=
  pget pd "tactile_guidance" false

/-- `AccessibilityFilter._check_wide_doors`. -/
def check_wide_doors (pd : Profile) : Bool :=
  pget pd "wide_doors" false

/-- `AccessibilityFilter._check_level_boarding`. -/
def check_level_boarding (pd : Profile) : Bool :=
  pget pd "level_boarding" false

/-- The `requirement_checkers` dispatch dict built in
`AccessibilityFilter.__init__`, in source order. -/
def requirement_checkers : List (String × (Profile → Bool)) :=
  [("wheelchair_accessible", check_wheelchair_accessible),
   ("no_stairs", check_no_stairs),
   ("working_elevator", check_working_elevator),
   ("low_floor_vehicle", check_low_floor_vehicle),
   ("audio_announcements", check_audio_announcements),
   ("visual_displays", check_visual_displays),
   ("tactile_guidance", check_tactile_guidance),
   ("wide_doors", check_wide_doors),
   ("level_boarding", check_level_boarding)]

/-- `AccessibilityFilter.get_supported_requirements`:
`list(self.requirement_checkers.keys())`. -/
def get_supported_requirements : List String :=
  requirement_checkers.map Prod.fst

/-- The requirement loop of `AccessibilityFilter.meets_requirements`:
for each requirement, dispatch through `requirement_checkers`; an unknown
requirement, or a checker returning false, makes the whole check return
false. -/
def meetsLoop (pd : Profile) : List String → Bool
  | [] => true
  | r :: rest =>
    match requirement_checkers.lookup r with
    | some c => if c pd then meetsLoop pd rest else false
    | none => false

/-- `AccessibilityFilter.meets_requirements(stop, requirements)`. -/
def meets_requirements (acc : AccessibilityData) (stop : String)
    (requirements : List String) : Bool :=
  meetsLoop (profileOf acc stop) requirements

/-- Attributes of one edge of the transit graph: `travel_time`,
`route_id` and the boolean accessibility flags. -/
structure EdgeData where
  travel_time : ℚ
  route_id : String
  flags : Profile
deriving DecidableEq, Repr

/-- One undirected edge of the networkx graph, as the pair of endpoint
names together with its attribute record. -/
structure Edge where
  u : String
  v : String
  data : EdgeData
deriving DecidableEq, Repr

/-- The transit network (embedding of the networkx `Graph`). -/
structure Graph where
  nodes : List String
  edges : List Edge
deriving DecidableEq, Repr

/-- Whether an edge record connects the unordered pair `{a, b}`. -/
def matchesPair (e : Edge) (a b : String) : Bool :=
  (e.u == a && e.v == b) || (e.u == b && e.v == a)

/-- Embedding of `graph.get_edge_data(a, b)`: the attribute record of the
edge joining `a` and `b`, if any. -/
def get_edge_data (g : Graph) (a b : String) : Option EdgeData :=
  (g.edges.find? (fun e => matchesPair e a b)).map Edge.data

/-- The per-requirement loop of
`AccessibilityFilter.edge_meets_requirements`: only the three
requirements with a segment-level flag impose an edge check. -/
def edgeReqLoop (ed : EdgeData) : List String → Bool
  | [] => true
  | r :: rest =>
    if r = "wheelchair_accessible" then
      if pget ed.flags "wheelchair_accessible" false then edgeReqLoop ed rest else false
    else if r = "low_floor_vehicle" then
      if pget ed.flags "low_floor" false then edgeReqLoop ed rest else false
    else if r = "wide_doors" then
      if pget ed.flags "wide_doors" false then edgeReqLoop ed rest else false
    else edgeReqLoop ed rest

/-- `AccessibilityFilter.edge_meets_requirements(from_stop, to_stop,
edge_data, requirements)`. -/
def edge_meets_requirements (acc : AccessibilityData) (from_stop to_stop : String)
    (ed : EdgeData) (requirements : List String) : Bool :=
  if meets_requirements acc from_stop requirements &&
      meets_requirements acc to_stop requirements then
    edgeReqLoop ed requirements
  else
    false

/-- `AccessibleRouter._create_accessible_graph(requirements)`: copy the
graph, drop every node failing `meets_requirements` (which, as in
networkx `remove_nodes_from`, drops the incident edges), then drop every
remaining edge failing `edge_meets_requirements`. -/
def create_accessible_graph (g : Graph) (acc : AccessibilityData)
    (requirements : List String) : Graph :=
  let kept := g.nodes.filter (fun n => meets_requirements acc n requirements)
  let edgesAfterNodes := g.edges.filter
    (fun e => decide (e.u ∈ kept) && decide (e.v ∈ kept))
  let keptEdges := edgesAfterNodes.filter
    (fun e => edge_meets_requirements acc e.u e.v e.data requirements)
  ⟨kept, keptEdges⟩

/-- The weighted feature dict of
`AccessibilityFilter.get_accessibility_score`, in source order.  The
Python weights 0.25, 0.15, 0.10, 0.05 are exact binary doubles up to the
sums this spec mentions, so they are embedded as the rationals they
denote. -/
def accessibility_features : List (String × ℚ) :=
  [("wheelchair_accessible", 25/100),
   ("has_elevator", 15/100),
   ("elevator_working", 10/100),
   ("has_ramp", 10/100),
   ("audio_announcements", 10/100),
   ("visual_displays", 10/100),
   ("tactile_guidance", 5/100),
   ("wide_doors", 5/100),
   ("level_boarding", 5/100),
   ("low_floor_service", 5/100)]

/-- The accumulation loop of `get_accessibility_score`: add the weight of
each feature that is present and true. -/
def scoreFold (pd : Profile) : List (String × ℚ) → ℚ → ℚ
  | [], s => s
  | fw :: rest, s => scoreFold pd rest (if pget pd fw.1 false then s + fw.2 else s)

/-- `AccessibilityFilter.get_accessibility_score(stop)`: the weighted sum
over features, capped at 1.0. -/
def get_accessibility_score (acc : AccessibilityData) (stop : String) : ℚ :=
  min (scoreFold (profileOf acc stop) accessibility_features 0) 1

/-- One entry of the `details` list built by
`AccessibleRouter._build_route_details`. -/
structure RouteSegment where
  from_stop : String
  to_stop : String
  route : String
  time : ℚ
  accessibility_notes : Option String
deriving DecidableEq, Repr

/-- The accessibility notes attached to one segment when
`include_accessibility` is true, joined with "; "; omitted (`none`) when
no note applies. -/
def segment_notes (acc : AccessibilityData) (from_stop : String)
    (ed : EdgeData) : Option String :=
  let ns :=
    (if pget ed.flags "wheelchair_accessible" false then ["Wheelchair accessible"] else []) ++
    (if pget ed.flags "has_elevator" false &&
        pget (profileOf acc from_stop) "elevator_working" true then
      ["Elevator available"] else []) ++
    (if !(pget ed.flags "has_stairs" true) then ["No stairs"] else [])
  if ns.isEmpty then none else some (String.intercalate "; " ns)

/-- The record built for one consecutive stop pair in
`_build_route_details`; a missing edge yields the `{}` defaults
(`route_id` "Unknown", `travel_time` 0, no notes). -/
def build_segment (g : Graph) (acc : AccessibilityData)
    (include_accessibility : Bool) (a b : String) : RouteSegment :=
  let ed := (get_edge_data g a b).getD ⟨0, "Unknown", []⟩
  ⟨a, b, ed.route_id, ed.travel_time,
    if include_accessibility then segment_notes acc a ed else none⟩

/-- `AccessibleRouter._build_route_details(path, include_accessibility)`. -/
def build_route_details (g : Graph) (acc : AccessibilityData)
    (include_accessibility : Bool) : List String → List RouteSegment
  | a :: b :: rest =>
    build_segment g acc include_accessibility a b ::
      build_route_details g acc include_accessibility (b :: rest)
  | _ => []

/-- The loop of `AccessibleRouter._count_transfers`: `current_route`
starts as `None`; each segment whose route differs from the previous
route counts one transfer. -/
def count_transfers_loop (current_route : Option String) :
    List RouteSegment → Nat
  | [] => 0
  | seg :: rest =>
    (match current_route with
     | some r => if seg.route ≠ r then 1 else 0
     | none => 0) + count_transfers_loop (some seg.route) rest

/-- `AccessibleRouter._count_transfers(details)`. -/
def count_transfers (details : List RouteSegment) : Nat :=
  if details.length ≤ 1 then 0 else count_transfers_loop none details

/-- Walk enumeration underlying the shortest-path model: all walks of at
most `n` vertices starting at `a` whose steps follow edges of `g` into
nodes of `g`. -/
def walksFrom (g : Graph) : Nat → String → List (List String)
  | 0, _ => []
  | n + 1, a =>
    [a] :: (g.nodes.filter (fun b => (get_edge_data g a b).isSome)).flatMap
      (fun b => (walksFrom g n b).map (fun w => a :: w))

/-- The duplicate-free walks of `g` from `a` to `b` (with positive edge
weights a shortest path is such a walk, so they suffice to realise the
Dijkstra minimum). -/
def simple_paths (g : Graph) (a b : String) : List (List String) :=
  (walksFrom g g.nodes.length a).filter
    (fun w => decide w.Nodup && decide (w.getLast? = some b))

/-- Total `travel_time` of a walk (sum of the weights of its consecutive
edges). -/
def walkTime (g : Graph) : List String → ℚ
  | a :: b :: rest =>
    ((get_edge_data g a b).map EdgeData.travel_time).getD 0 + walkTime g (b :: rest)
  | _ => 0

/-- Embedding of `nx.shortest_path_length(g, a, b, weight='travel_time')`
(Dijkstra): the minimum total travel time over simple paths; `none` models
the `NodeNotFound` / `NetworkXNoPath` exceptions. -/
def shortest_path_length (g : Graph) (a b : String) : Option ℚ :=
  if a ∈ g.nodes ∧ b ∈ g.nodes then
    ((simple_paths g a b).map (walkTime g)).min?
  else
    none

/-- A minimum-`walkTime` element of a walk list (the path returned by
`nx.shortest_path`; the tie-break is implementation-defined but
deterministic). -/
def argmin_walk (g : Graph) : List (List String) → Option (List String)
  | [] => none
  | w :: rest =>
    match argmin_walk g rest with
    | none => some w
    | some w2 => if walkTime g w ≤ walkTime g w2 then some w else some w2

/-- Embedding of `nx.shortest_path(g, a, b, weight='travel_time')`. -/
def nx_shortest_path (g : Graph) (a b : String) : Option (List String) :=
  if a ∈ g.nodes ∧ b ∈ g.nodes then argmin_walk g (simple_paths g a b) else none

/-- The outcome dictionary of the routing calls: either a found route or
a not-found dictionary with `path = None` and a message. -/
inductive RouteResult where
  | found (path : List String) (total_time : ℚ) (transfers : Nat)
      (details : List RouteSegment) (accessible : Bool)
      (requirements_met : List String) : RouteResult
  | notFound (message : String) : RouteResult
deriving DecidableEq, Repr

/-- The apostrophe character, used by the Python `repr` of a string. -/
def quoteChar : Char := Char.ofNat 39

/-- Python `repr` of a list of plain strings, as interpolated by the
f-strings of `find_accessible_path`. -/
def py_list_repr (xs : List String) : String :=
  "[" ++ String.intercalate ", "
    (xs.map (fun s => String.singleton quoteChar ++ s ++ String.singleton quoteChar)) ++ "]"

/-- The message `f"Start or end stop not accessible with requirements:
{requirements}"`. -/
def msg_not_accessible (requirements : List String) : String :=
  "Start or end stop not accessible with requirements: " ++ py_list_repr requirements

/-- The message `f"No accessible route found between {start} and {end}
with requirements: {requirements}"`. -/
def msg_no_accessible_route (start fin : String) (requirements : List String) : String :=
  "No accessible route found between " ++ start ++ " and " ++ fin ++
    " with requirements: " ++ py_list_repr requirements

/-- `AccessibleRouter.find_accessible_path(start, end, requirements)`:
filter the graph, reject endpoints missing from the filtered graph, then
search; the caught `NetworkXNoPath` becomes the no-route message. -/
def find_accessible_path (g : Graph) (acc : AccessibilityData)
    (start fin : String) (requirements : List String) : RouteResult :=
  let ag := create_accessible_graph g acc requirements
  if start ∉ ag.nodes ∨ fin ∉ ag.nodes then
    RouteResult.notFound (msg_not_accessible requirements)
  else
    match nx_shortest_path ag start fin, shortest_path_length ag start fin with
    | some p, some t =>
      let details := build_route_details g acc true p
      RouteResult.found p t (count_transfers details) details true requirements
    | _, _ => RouteResult.notFound (msg_no_accessible_route start fin requirements)

/-- The networkx class invariant: every edge endpoint is a node of the
graph. -/
def WellFormed (g : Graph) : Prop :=
  ∀ e ∈ g.edges, e.u ∈ g.nodes ∧ e.v ∈ g.nodes

/-- The data-model invariant that a pair of stops carries at most one
segment: two edge records joining the same endpoints are equal. -/
def NoDupPairs (g : Graph) : Prop :=
  ∀ e1 ∈ g.edges, ∀ e2 ∈ g.edges, matchesPair e1 e2.u e2.v = true → e1 = e2

/-- `sub` is a subgraph of `g`: its nodes and its edge records (with
their attributes) all occur in `g`. -/
def Subgraph (sub g : Graph) : Prop :=
  (∀ x ∈ sub.nodes, x ∈ g.nodes) ∧ (∀ e ∈ sub.edges, e ∈ g.edges)

/-- Modelled from the spec: the number of adjacent pairs of a route-id
sequence whose two entries differ (spec-side count used to compare with
`count_transfers`). -/
def adjacentRouteChanges : List String → Nat
  | a :: b :: rest => (if a ≠ b then 1 else 0) + adjacentRouteChanges (b :: rest)
  | _ => 0

/-- Modelled from the spec: the sum of the weights of the features that
are present and true (spec-side sum used to compare with the fold of
`get_accessibility_score`). -/
def spec_score_sum (pd : Profile) : ℚ :=
  ((accessibility_features.filter (fun fw => pget pd fw.1 false)).map Prod.snd).sum

/-- A concrete example network: the spec's test scenario `A-B (5, route 1),
B-C (3, route 1), C-D (4, route 2)` plus a direct `A-D` segment that has
no accessibility flags. -/
def gEx : Graph :=
  ⟨["A", "B", "C", "D"],
   [⟨"A", "B", ⟨5, "1", [("wheelchair_accessible", true)]⟩⟩,
    ⟨"B", "C", ⟨3, "1", [("wheelchair_accessible", true)]⟩⟩,
    ⟨"C", "D", ⟨4, "2", [("wheelchair_accessible", true)]⟩⟩,
    ⟨"A", "D", ⟨20, "3", []⟩⟩]⟩

/-- Example accessibility data: stop `B` is not wheelchair accessible. -/
def accEx : AccessibilityData :=
  [("A", [("wheelchair_accessible", true), ("has_stairs", false)]),
   ("B", [("wheelchair_accessible", false)]),
   ("C", [("wheelchair_accessible", true)]),
   ("D", [("wheelchair_accessible", true)])]

/-- Example data with a fully accessible stop (all ten weighted features
present and true). -/
def accFull : AccessibilityData :=
  [("F", [("wheelchair_accessible", true), ("has_elevator", true),
          ("elevator_working", true), ("has_ramp", true),
          ("audio_announcements", true), ("visual_displays", true),
          ("tactile_guidance", true), ("wide_doors", true),
          ("level_boarding", true), ("low_floor_service", true)])]

/-- A triangle network used to compare shortest paths between a graph and
a subgraph. -/
def gTri : Graph :=
  ⟨["A", "B", "C"],
   [⟨"A", "B", ⟨1, "1", []⟩⟩, ⟨"B", "C", ⟨1, "1", []⟩⟩, ⟨"A", "C", ⟨3, "2", []⟩⟩]⟩

/-- The subgraph of `gTri` without stop `B` (only the direct edge
remains). -/
def gTriSub : Graph :=
  ⟨["A", "C"], [⟨"A", "C", ⟨3, "2", []⟩⟩]⟩

/-! ## Helper lemmas -/

/-- Two graphs with the same node list and the same edge list are equal. -/
theorem graph_eq_of {g1 g2 : Graph} (hn : g1.nodes = g2.nodes)
    (he : g1.edges = g2.edges) : g1 = g2 := by
  cases g1; cases g2; simp_all

/-- The node list of the filtered graph, by definition. -/
theorem create_nodes (g : Graph) (acc : AccessibilityData) (reqs : List String) :
    (create_accessible_graph g acc reqs).nodes =
      g.nodes.filter (fun n => meets_requirements acc n reqs) := rfl

/-- The edge list of the filtered graph, by definition. -/
theorem create_edges (g : Graph) (acc : AccessibilityData) (reqs : List String) :
    (create_accessible_graph g acc reqs).edges =
      (g.edges.filter (fun e =>
        decide (e.u ∈ (create_accessible_graph g acc reqs).nodes) &&
        decide (e.v ∈ (create_accessible_graph g acc reqs).nodes))).filter
        (fun e => edge_meets_requirements acc e.u e.v e.data reqs) := rfl

/-- A successful association-list lookup means the key occurs among the
keys. -/
theorem mem_keys_of_lookup_eq_some {α : Type} :
    ∀ (l : List (String × α)) (r : String) (c : α),
      l.lookup r = some c → r ∈ l.map Prod.fst := by
  intro l
  induction l with
  | nil => intro r c h; simp [List.lookup] at h
  | cons kv rest ih =>
    intro r c h
    cases kv with
    | mk k v =>
      by_cases hk : k = r
      · subst hk; exact List.mem_cons_self _ _
      · have hk' : (r == k) = false := by
          simp only [beq_eq_false_iff_ne, ne_eq]
          exact fun hrk => hk hrk.symm
        rw [List.lookup, hk'] at h
        exact List.mem_cons_of_mem _ (ih r c h)

/-- A requirement outside the supported enumeration has no checker. -/
theorem lookup_none_of_not_supported {r : String}
    (h : r ∉ get_supported_requirements) :
    requirement_checkers.lookup r = none := by
  cases hl : requirement_checkers.lookup r with
  | none => rfl
  | some c =>
    exact absurd (mem_keys_of_lookup_eq_some _ r c hl) h

/-- The requirement loop succeeds exactly when every requirement has a
checker that accepts the profile. -/
theorem meetsLoop_eq_true_iff (pd : Profile) :
    ∀ reqs : List String, meetsLoop pd reqs = true ↔
      ∀ r ∈ reqs, ∃ c, requirement_checkers.lookup r = some c ∧ c pd = true := by
  intro reqs
  induction reqs with
  | nil => simp [meetsLoop]
  | cons r rest ih =>
    rw [meetsLoop]
    cases hr : requirement_checkers.lookup r with
    | none =>
      simp only [List.forall_mem_cons]
      constructor
      · intro h; cases h
      · rintro ⟨⟨c, hc, -⟩, -⟩; rw [hr] at hc; cases hc
    | some c =>
      cases hc : c pd with
      | false =>
        simp only [if_neg (by simp [hc] : ¬ c pd = true), List.forall_mem_cons]
        constructor
        · intro h; cases h
        · rintro ⟨⟨c2, hc2, hc2t⟩, -⟩
          rw [hr] at hc2
          cases hc2
          rw [hc] at hc2t; cases hc2t
      | true =>
        simp only [if_pos hc, List.forall_mem_cons, ih]
        constructor
        · intro h; exact ⟨⟨c, hr, hc⟩, h⟩
        · rintro ⟨-, h⟩; exact h

/-- An unknown requirement anywhere in the list makes the loop fail. -/
theorem meetsLoop_false_of_unknown (pd : Profile) :
    ∀ (reqs : List String) (bad : String), bad ∈ reqs →
      requirement_checkers.lookup bad = none → meetsLoop pd reqs = false := by
  intro reqs
  induction reqs with
  | nil => intro bad h; cases h
  | cons r rest ih =>
    intro bad hmem hbad
    rw [meetsLoop]
    cases hr : requirement_checkers.lookup r with
    | none => rfl
    | some c =>
      cases hc : c pd with
      | false => simp [hc]
      | true =>
        have hbr : bad ∈ rest := by
          rcases List.mem_cons.mp hmem with h | h
          · subst h; rw [hr] at hbad; cases hbad
          · exact h
        simp [hc, ih bad hbr hbad]

/-- Reading `meets_requirements` with a singleton list is one dispatch
through `requirement_checkers`. -/
theorem meets_singleton (acc : AccessibilityData) (stop r : String)
    (c : Profile → Bool) (h : requirement_checkers.lookup r = some c) :
    meets_requirements acc stop [r] = c (profileOf acc stop) := by
  rw [meets_requirements, meetsLoop, h]
  cases hc : c (profileOf acc stop) <;> simp [meetsLoop, hc]

/-! ## Claim theorems -/

/-- C2: for every stop and each single recognized requirement the
stop-level check equals the documented predicate over the stop's profile
with the documented defaults: NO_STAIRS holds iff has_stairs (default
true) is false or has_elevator or has_ramp is true; WORKING_ELEVATOR
holds iff has_elevator is true and elevator_working (default true) is
true; the remaining seven are direct boolean lookups defaulting to false
(LOW_FLOOR_VEHICLE reads low_floor_service). -/
theorem claim_C2 (acc : AccessibilityData) (stop : String) :
    (meets_requirements acc stop ["no_stairs"] = true ↔
      (pget (profileOf acc stop) "has_stairs" true = false ∨
       pget (profileOf acc stop) "has_elevator" false = true ∨
       pget (profileOf acc stop) "has_ramp" false = true)) ∧
    (meets_requirements acc stop ["working_elevator"] = true ↔
      (pget (profileOf acc stop) "has_elevator" false = true ∧
       pget (profileOf acc stop) "elevator_working" true = true)) ∧
    (meets_requirements acc stop ["wheelchair_accessible"] = true ↔
      pget (profileOf acc stop) "wheelchair_accessible" false = true) ∧
    (meets_requirements acc stop ["low_floor_vehicle"] = true ↔
      pget (profileOf acc stop) "low_floor_service" false = true) ∧
    (meets_requirements acc stop ["audio_announcements"] = true ↔
      pget (profileOf acc stop) "audio_announcements" false = true) ∧
    (meets_requirements acc stop ["visual_displays"] = true ↔
      pget (profileOf acc stop) "visual_displays" false = true) ∧
    (meets_requirements acc stop ["tactile_guidance"] = true ↔
      pget (profileOf acc stop) "tactile_guidance" false = true) ∧
    (meets_requirements acc stop ["wide_doors"] = true ↔
      pget (profileOf acc stop) "wide_doors" false = true) ∧
    (meets_requirements acc stop ["level_boarding"] = true ↔
      pget (profileOf acc stop) "level_boarding" false = true) := by
  refine ⟨?_, ?_, ?_, ?_, ?_, ?_, ?_, ?_, ?_⟩
  · rw [meets_singleton acc stop "no_stairs" check_no_stairs rfl]
    simp [check_no_stairs, Bool.or_eq_true, Bool.not_eq_true']
  · rw [meets_singleton acc stop "working_elevator" check_working_elevator rfl]
    simp only [check_working_elevator, Bool.and_eq_true]
  · rw [meets_singleton acc stop "wheelchair_accessible" check_wheelchair_accessible rfl]
    rfl
  · rw [meets_singleton acc stop "low_floor_vehicle" check_low_floor_vehicle rfl]
    rfl
  · rw [meets_singleton acc stop "audio_announcements" check_audio_announcements rfl]
    rfl
  · rw [meets_singleton acc stop "visual_displays" check_visual_displays rfl]
    rfl
  · rw [meets_singleton acc stop "tactile_guidance" check_tactile_guidance rfl]
    rfl
  · rw [meets_singleton acc stop "wide_doors" check_wide_doors rfl]
    rfl
  · rw [meets_singleton acc stop "level_boarding" check_level_boarding rfl]
    rfl

/-- C3: a requirement list containing any token outside the nine
recognized names makes `meets_requirements` return false for every stop
and every accessibility dataset; the embedded function is total, so no
exception can escape (fail-closed). -/
theorem claim_C3 (acc : AccessibilityData) (stop : String)
    (reqs : List String) (bad : String) (h1 : bad ∈ reqs)
    (h2 : bad ∉ get_supported_requirements) :
    meets_requirements acc stop reqs = false :=
  meetsLoop_false_of_unknown (profileOf acc stop) reqs bad h1
    (lookup_none_of_not_supported h2)

/-- Witness for C3 at the spec's own example list
`["wheelchair_accessible", "teleportation"]`. -/
theorem claim_C3_witness :
    ("teleportation" ∈ (["wheelchair_accessible", "teleportation"] : List String)) ∧
    ("teleportation" ∉ get_supported_requirements) ∧
    meets_requirements accEx "A" ["wheelchair_accessible", "teleportation"] = false :=
  ⟨by decide, by decide,
    claim_C3 accEx "A" ["wheelchair_accessible", "teleportation"] "teleportation"
      (by decide) (by decide)⟩

/-- C5: requirement satisfaction is monotone: for non-empty recognized
requirement lists with R1 contained in R2, any stop meeting R2 also
meets R1. -/
theorem claim_C5 (acc : AccessibilityData) (stop : String)
    (R1 R2 : List String) (_hne1 : R1 ≠ []) (_hne2 : R2 ≠ [])
    (_hrec1 : ∀ r ∈ R1, r ∈ get_supported_requirements)
    (_hrec2 : ∀ r ∈ R2, r ∈ get_supported_requirements)
    (hsub : ∀ r ∈ R1, r ∈ R2)
    (hmeets : meets_requirements acc stop R2 = true) :
    meets_requirements acc stop R1 = true := by
  rw [meets_requirements, meetsLoop_eq_true_iff] at hmeets ⊢
  exact fun r hr => hmeets r (hsub r hr)

/-- Witness for C5 with R1 = [wheelchair_accessible] contained in
R2 = [wheelchair_accessible, no_stairs], at stop A of the example data. -/
theorem claim_C5_witness :
    (["wheelchair_accessible"] : List String) ≠ [] ∧
    (["wheelchair_accessible", "no_stairs"] : List String) ≠ [] ∧
    (∀ r ∈ (["wheelchair_accessible"] : List String), r ∈ get_supported_requirements) ∧
    (∀ r ∈ (["wheelchair_accessible", "no_stairs"] : List String),
      r ∈ get_supported_requirements) ∧
    (∀ r ∈ (["wheelchair_accessible"] : List String),
      r ∈ (["wheelchair_accessible", "no_stairs"] : List String)) ∧
    meets_requirements accEx "A" ["wheelchair_accessible", "no_stairs"] = true ∧
    meets_requirements accEx "A" ["wheelchair_accessible"] = true :=
  ⟨by decide, by decide, by decide, by decide, by decide, by decide,
    claim_C5 accEx "A" ["wheelchair_accessible"] ["wheelchair_accessible", "no_stairs"]
      (by decide) (by decide) (by decide) (by decide) (by decide) (by decide)⟩

/-- The score accumulation loop equals its start plus the sum of the
weights of the present-and-true features. -/
theorem scoreFold_eq (pd : Profile) :
    ∀ (l : List (String × ℚ)) (s : ℚ),
      scoreFold pd l s =
        s + ((l.filter (fun fw => pget pd fw.1 false)).map Prod.snd).sum := by
  intro l
  induction l with
  | nil => intro s; simp [scoreFold]
  | cons fw rest ih =>
    intro s
    rw [scoreFold, ih, List.filter_cons]
    cases hb : pget pd fw.1 false with
    | true => simp only [hb, if_true, List.map_cons, List.sum_cons]; ring
    | false => simp [hb]

/-- C8: the accessibility score is always in [0, 1]; a stop whose profile
has all ten weighted features true scores exactly 1; a stop with an empty
profile (in particular one with no profile entry) scores exactly 0; the
result is the sum of the weights of the present-and-true features,
capped at 1. -/
theorem claim_C8 (acc : AccessibilityData) (stop : String) :
    0 ≤ get_accessibility_score acc stop ∧
    get_accessibility_score acc stop ≤ 1 ∧
    ((∀ fw ∈ accessibility_features, pget (profileOf acc stop) fw.1 false = true) →
      get_accessibility_score acc stop = 1) ∧
    (profileOf acc stop = [] → get_accessibility_score acc stop = 0) ∧
    get_accessibility_score acc stop = min (spec_score_sum (profileOf acc stop)) 1 := by
  have hcap : get_accessibility_score acc stop =
      min (spec_score_sum (profileOf acc stop)) 1 := by
    rw [get_accessibility_score, scoreFold_eq, zero_add, spec_score_sum]
  refine ⟨?_, ?_, ?_, ?_, hcap⟩
  · rw [hcap]
    refine le_min ?_ (by norm_num)
    apply List.sum_nonneg
    intro x hx
    obtain ⟨fw, hfw, hx⟩ := List.mem_map.mp hx
    have hfw2 : fw ∈ accessibility_features := List.mem_of_mem_filter hfw
    have hw : ∀ fw ∈ accessibility_features, (0 : ℚ) ≤ fw.2 := by
      norm_num [accessibility_features]
    subst hx
    exact hw fw hfw2
  · rw [get_accessibility_score]
    exact min_le_right _ _
  · intro hall
    rw [hcap, spec_score_sum, List.filter_eq_self.mpr hall]
    norm_num [accessibility_features]
  · intro hempty
    rw [hcap, spec_score_sum, hempty]
    norm_num [accessibility_features, pget, List.lookup]

/-- Witness for C8: the fully equipped stop F scores exactly 1, and a
stop with no profile entry scores exactly 0. -/
theorem claim_C8_witness :
    get_accessibility_score accFull "F" = 1 ∧
    get_accessibility_score [] "X" = 0 :=
  ⟨(claim_C8 accFull "F").2.2.1 (by decide),
   (claim_C8 [] "X").2.2.2.1 (by decide)⟩

/-- The transfer loop, once seeded with a previous route id, counts the
adjacent changes of the route-id sequence. -/
theorem count_transfers_loop_eq (r : String) :
    ∀ l : List RouteSegment,
      count_transfers_loop (some r) l =
        adjacentRouteChanges (r :: l.map RouteSegment.route) := by
  intro l
  induction l generalizing r with
  | nil => simp [count_transfers_loop, adjacentRouteChanges]
  | cons seg rest ih =>
    rw [count_transfers_loop, List.map_cons, adjacentRouteChanges, ih seg.route]
    by_cases h : seg.route = r
    · simp [h]
    · have h2 : ¬ r = seg.route := fun he => h he.symm
      simp [h, h2]

/-- A route-id sequence whose entries are all equal has no adjacent
change. -/
theorem adjacentRouteChanges_const (r : String) :
    ∀ l : List String, (∀ x ∈ l, x = r) → adjacentRouteChanges l = 0 := by
  intro l
  induction l with
  | nil => intro _; rfl
  | cons a tail ih =>
    intro h
    cases tail with
    | nil => rfl
    | cons b rest =>
      rw [adjacentRouteChanges]
      have ha := h a (List.mem_cons_self _ _)
      have hb := h b (List.mem_cons_of_mem _ (List.mem_cons_self _ _))
      rw [if_neg (by rw [ha, hb]; simp), ih (fun x hx => h x (List.mem_cons_of_mem _ hx))]

/-- C9: `count_transfers` returns 0 for a list of at most one segment and
for a list whose segments all share one route id, and in general returns
exactly the number of adjacent segment pairs whose route ids differ. -/
theorem claim_C9 (details : List RouteSegment) :
    count_transfers details =
      adjacentRouteChanges (details.map RouteSegment.route) ∧
    (details.length ≤ 1 → count_transfers details = 0) ∧
    ((∃ r, ∀ seg ∈ details, seg.route = r) → count_transfers details = 0) := by
  have hmain : count_transfers details =
      adjacentRouteChanges (details.map RouteSegment.route) := by
    match details with
    | [] => rfl
    | [a] => rfl
    | a :: b :: rest =>
      rw [count_transfers, if_neg (by simp)]
      rw [count_transfers_loop, List.map_cons]
      rw [count_transfers_loop_eq a.route (b :: rest)]
      exact Nat.zero_add _
  refine ⟨hmain, ?_, ?_⟩
  · intro hlen
    rw [count_transfers, if_pos hlen]
  · rintro ⟨r, hr⟩
    rw [hmain]
    apply adjacentRouteChanges_const r
    intro x hx
    obtain ⟨seg, hseg, hx⟩ := List.mem_map.mp hx
    subst hx
    exact hr seg hseg

/-- Witness for C9: a single segment and a constant-route pair both give
0 transfers; the theorem's exact count at a route change gives 1. -/
theorem claim_C9_witness :
    count_transfers [⟨"A", "B", "1", 5, none⟩] = 0 ∧
    count_transfers [⟨"A", "B", "1", 5, none⟩, ⟨"B", "C", "1", 3, none⟩] = 0 ∧
    count_transfers [⟨"A", "B", "1", 5, none⟩, ⟨"B", "C", "2", 3, none⟩] =
      adjacentRouteChanges ["1", "2"] :=
  ⟨(claim_C9 [⟨"A", "B", "1", 5, none⟩]).2.1 (by decide),
   (claim_C9 [⟨"A", "B", "1", 5, none⟩, ⟨"B", "C", "1", 3, none⟩]).2.2
     ⟨"1", by decide⟩,
   (claim_C9 [⟨"A", "B", "1", 5, none⟩, ⟨"B", "C", "2", 3, none⟩]).1⟩

/-- C1: the accessible subgraph contains exactly the stops of the network
satisfying `meets_requirements`, and exactly the segments of the network
whose two endpoints both survive and which satisfy
`edge_meets_requirements`; nothing is added, and a surviving segment is
the original record, attributes included. -/
theorem claim_C1 (g : Graph) (acc : AccessibilityData) (reqs : List String) :
    (∀ s : String, s ∈ (create_accessible_graph g acc reqs).nodes ↔
      s ∈ g.nodes ∧ meets_requirements acc s reqs = true) ∧
    (∀ e : Edge, e ∈ (create_accessible_graph g acc reqs).edges ↔
      e ∈ g.edges ∧ e.u ∈ (create_accessible_graph g acc reqs).nodes ∧
        e.v ∈ (create_accessible_graph g acc reqs).nodes ∧
        edge_meets_requirements acc e.u e.v e.data reqs = true) := by
  constructor
  · intro s
    rw [create_nodes, List.mem_filter]
  · intro e
    rw [create_edges, List.mem_filter, List.mem_filter]
    simp only [Bool.and_eq_true, decide_eq_true_eq]
    tauto

/-- C6: filtering is idempotent: applying `_create_accessible_graph` to
its own output, with the same requirements and accessibility data, yields
the identical graph (same stops, same segments, same attributes). -/
theorem claim_C6 (g : Graph) (acc : AccessibilityData) (reqs : List String) :
    create_accessible_graph (create_accessible_graph g acc reqs) acc reqs =
      create_accessible_graph g acc reqs := by
  have hn : (create_accessible_graph (create_accessible_graph g acc reqs) acc reqs).nodes
      = (create_accessible_graph g acc reqs).nodes := by
    rw [create_nodes (create_accessible_graph g acc reqs) acc reqs]
    apply List.filter_eq_self.mpr
    intro a ha
    rw [create_nodes] at ha
    exact (List.mem_filter.mp ha).2
  have he : (create_accessible_graph (create_accessible_graph g acc reqs) acc reqs).edges
      = (create_accessible_graph g acc reqs).edges := by
    rw [create_edges (create_accessible_graph g acc reqs) acc reqs, hn]
    have h1 : (create_accessible_graph g acc reqs).edges.filter
        (fun e => decide (e.u ∈ (create_accessible_graph g acc reqs).nodes) &&
          decide (e.v ∈ (create_accessible_graph g acc reqs).nodes)) =
        (create_accessible_graph g acc reqs).edges := by
      apply List.filter_eq_self.mpr
      intro e he
      rw [create_edges] at he
      exact (List.mem_filter.mp (List.mem_filter.mp he).1).2
    rw [h1]
    apply List.filter_eq_self.mpr
    intro e he
    rw [create_edges] at he
    exact (List.mem_filter.mp he).2
  exact graph_eq_of hn he

/-- C10: the empty requirement list is accepted without validation and
filters nothing: every stop and every segment passes, and on a
well-formed graph (edge endpoints are nodes, the networkx class
invariant) the derived accessible graph is the full network itself, so
`find_accessible_path` with `[]` searches the unfiltered graph. -/
theorem claim_C10 (g : Graph) (acc : AccessibilityData)
    (stop from_stop to_stop : String) (ed : EdgeData)
    (hWF : WellFormed g) :
    meets_requirements acc stop [] = true ∧
    edge_meets_requirements acc from_stop to_stop ed [] = true ∧
    create_accessible_graph g acc [] = g := by
  refine ⟨rfl, rfl, ?_⟩
  have hn : (create_accessible_graph g acc []).nodes = g.nodes := by
    rw [create_nodes]
    exact List.filter_eq_self.mpr (fun a _ => rfl)
  have he : (create_accessible_graph g acc []).edges = g.edges := by
    rw [create_edges, hn]
    have h1 : g.edges.filter
        (fun e => decide (e.u ∈ g.nodes) && decide (e.v ∈ g.nodes)) = g.edges := by
      apply List.filter_eq_self.mpr
      intro e he
      simp only [Bool.and_eq_true, decide_eq_true_eq]
      exact hWF e he
    rw [h1]
    exact List.filter_eq_self.mpr (fun e _ => rfl)
  exact graph_eq_of hn he

/-- Witness for C10 on the example network. -/
theorem claim_C10_witness :
    WellFormed gEx ∧ create_accessible_graph gEx accEx [] = gEx :=
  ⟨by unfold WellFormed; decide,
   (claim_C10 gEx accEx "A" "A" "B" ⟨1, "1", []⟩ (by unfold WellFormed; decide)).2.2⟩

/-- The two not-found messages of `find_accessible_path` are never the
same string: one starts with the letter S, the other with N. -/
theorem msg_distinct (r1 : List String) (s f : String) (r2 : List String) :
    msg_not_accessible r1 ≠ msg_no_accessible_route s f r2 := by
  intro h
  have h1 : (msg_not_accessible r1).data.head? = some 'S' := rfl
  have h2 : (msg_no_accessible_route s f r2).data.head? = some 'N' := rfl
  rw [h, h2] at h1
  cases h1

/-- C4: when start or end is missing from the accessible subgraph,
`find_accessible_path` returns a not-found result with the
endpoint-excluded message; when both endpoints are present but no path
exists it returns a not-found result with the no-route message; the two
messages are always distinct strings.  (The embedded function is total:
no exception propagates.) -/
theorem claim_C4 (g : Graph) (acc : AccessibilityData)
    (start fin : String) (reqs : List String) :
    (start ∉ (create_accessible_graph g acc reqs).nodes ∨
      fin ∉ (create_accessible_graph g acc reqs).nodes →
      find_accessible_path g acc start fin reqs =
        RouteResult.notFound (msg_not_accessible reqs)) ∧
    (start ∈ (create_accessible_graph g acc reqs).nodes →
      fin ∈ (create_accessible_graph g acc reqs).nodes →
      shortest_path_length (create_accessible_graph g acc reqs) start fin = none →
      find_accessible_path g acc start fin reqs =
        RouteResult.notFound (msg_no_accessible_route start fin reqs)) ∧
    (∀ (r1 : List String) (s2 f2 : String) (r2 : List String),
      msg_not_accessible r1 ≠ msg_no_accessible_route s2 f2 r2) := by
  refine ⟨?_, ?_, fun r1 s2 f2 r2 => msg_distinct r1 s2 f2 r2⟩
  · intro h
    rw [find_accessible_path, if_pos h]
  · intro hs hf hnone
    have hcond : ¬ (start ∉ (create_accessible_graph g acc reqs).nodes ∨
        fin ∉ (create_accessible_graph g acc reqs).nodes) := by
      push_neg
      exact ⟨hs, hf⟩
    rw [find_accessible_path, if_neg hcond]
    have hsp : nx_shortest_path (create_accessible_graph g acc reqs) start fin = none := by
      rw [shortest_path_length, if_pos ⟨hs, hf⟩] at hnone
      rw [List.min?_eq_none_iff, List.map_eq_nil_iff] at hnone
      rw [nx_shortest_path, if_pos ⟨hs, hf⟩, hnone]
      rfl
    rw [hsp, hnone]

/-- Witness for C4 on the example network: B is excluded by the
wheelchair requirement, and A-D is disconnected in the filtered graph. -/
theorem claim_C4_witness :
    find_accessible_path gEx accEx "B" "D" ["wheelchair_accessible"] =
      RouteResult.notFound (msg_not_accessible ["wheelchair_accessible"]) ∧
    find_accessible_path gEx accEx "A" "D" ["wheelchair_accessible"] =
      RouteResult.notFound (msg_no_accessible_route "A" "D" ["wheelchair_accessible"]) :=
  ⟨(claim_C4 gEx accEx "B" "D" ["wheelchair_accessible"]).1 (by decide),
   (claim_C4 gEx accEx "A" "D" ["wheelchair_accessible"]).2.1
     (by decide) (by decide) (by decide)⟩

/-- `matchesPair` does not depend on the order of the queried pair. -/
theorem matchesPair_symm (e : Edge) (a b : String) :
    matchesPair e a b = matchesPair e b a := by
  simp [matchesPair, Bool.or_comm]

/-- In a graph without duplicate segments between a pair of stops, an
edge lookup that succeeds in a subgraph returns the same record in the
ambient graph. -/
theorem get_edge_data_subgraph {sub g : Graph} (hsub : Subgraph sub g)
    (hnd : NoDupPairs g) {x y : String} {d : EdgeData}
    (h : get_edge_data sub x y = some d) : get_edge_data g x y = some d := by
  rw [get_edge_data] at h
  cases hf : sub.edges.find? (fun e => matchesPair e x y) with
  | none => rw [hf] at h; cases h
  | some e =>
    rw [hf] at h
    simp only [Option.map_some', Option.some.injEq] at h
    have he_mem : e ∈ sub.edges := List.mem_of_find?_eq_some hf
    have he_p : matchesPair e x y = true := by
      have h0 := List.find?_some hf
      exact h0
    have heg : e ∈ g.edges := hsub.2 e he_mem
    have hex : (g.edges.find? (fun e2 => matchesPair e2 x y)).isSome := by
      rw [List.find?_isSome]
      exact ⟨e, heg, he_p⟩
    cases hg : g.edges.find? (fun e2 => matchesPair e2 x y) with
    | none => rw [hg] at hex; cases hex
    | some e2 =>
      have he2_mem : e2 ∈ g.edges := List.mem_of_find?_eq_some hg
      have he2_p : matchesPair e2 x y = true := by
        have h0 := List.find?_some hg
        exact h0
      have hmp : matchesPair e e2.u e2.v = true := by
        rw [matchesPair, Bool.or_eq_true, Bool.and_eq_true, Bool.and_eq_true] at he2_p
        rcases he2_p with ⟨hu, hv⟩ | ⟨hu, hv⟩
        · rw [beq_iff_eq] at hu hv
          rw [hu, hv]
          exact he_p
        · rw [beq_iff_eq] at hu hv
          rw [hu, hv, matchesPair_symm]
          exact he_p
      have heq : e = e2 := hnd e heg e2 he2_mem hmp
      rw [get_edge_data, hg, ← heq, Option.map_some', h]

/-- The total travel time of a walk that stays inside a subgraph is the
same when measured in the ambient graph (no duplicate segments). -/
theorem walkTime_subgraph {sub g : Graph} (hsub : Subgraph sub g)
    (hnd : NoDupPairs g) :
    ∀ p : List String,
      List.Chain' (fun x y => (get_edge_data sub x y).isSome = true) p →
      walkTime sub p = walkTime g p := by
  intro p
  induction p with
  | nil => intro _; rfl
  | cons a tail ih =>
    intro hchain
    cases tail with
    | nil => rfl
    | cons b rest =>
      have h1 := (List.chain'_cons.mp hchain).1
      obtain ⟨d, hd⟩ := Option.isSome_iff_exists.mp h1
      have hd2 := get_edge_data_subgraph hsub hnd hd
      show ((get_edge_data sub a b).map EdgeData.travel_time).getD 0 +
          walkTime sub (b :: rest) =
        ((get_edge_data g a b).map EdgeData.travel_time).getD 0 +
          walkTime g (b :: rest)
      rw [hd, hd2, ih (List.chain'_cons.mp hchain).2]

/-- Every enumerated walk starts at its seed, follows edges of the graph,
and visits only nodes of the graph after the seed. -/
theorem walksFrom_sound (g : Graph) :
    ∀ (n : Nat) (a : String) (p : List String), p ∈ walksFrom g n a →
      ∃ rest, p = a :: rest ∧
        List.Chain' (fun x y => (get_edge_data g x y).isSome = true) p ∧
        ∀ x ∈ rest, x ∈ g.nodes := by
  intro n
  induction n with
  | zero => intro a p hp; simp [walksFrom] at hp
  | succ n ih =>
    intro a p hp
    rw [walksFrom] at hp
    rcases List.mem_cons.mp hp with h | h
    · subst h
      exact ⟨[], rfl, List.chain'_singleton a, by simp⟩
    · obtain ⟨b, hb, hpw⟩ := List.mem_flatMap.mp h
      obtain ⟨w, hw, hwp⟩ := List.mem_map.mp hpw
      obtain ⟨rest2, hw_eq, hchain, hmem⟩ := ih b w hw
      have hbfilter := List.mem_filter.mp hb
      subst hwp
      refine ⟨w, rfl, ?_, ?_⟩
      · rw [hw_eq, List.chain'_cons]
        exact ⟨hbfilter.2, hw_eq ▸ hchain⟩
      · intro x hx
        rw [hw_eq] at hx
        rcases List.mem_cons.mp hx with h2 | h2
        · subst h2; exact hbfilter.1
        · exact hmem x h2

/-- Every walk of the graph short enough for the fuel is enumerated. -/
theorem walksFrom_complete (g : Graph) :
    ∀ (rest : List String) (n : Nat) (a : String),
      (a :: rest).length ≤ n →
      List.Chain' (fun x y => (get_edge_data g x y).isSome = true) (a :: rest) →
      (∀ x ∈ rest, x ∈ g.nodes) →
      (a :: rest) ∈ walksFrom g n a := by
  intro rest
  induction rest with
  | nil =>
    intro n a hlen _ _
    cases n with
    | zero => simp at hlen
    | succ n => rw [walksFrom]; exact List.mem_cons_self _ _
  | cons b rest2 ih =>
    intro n a hlen hchain hmem
    cases n with
    | zero => simp at hlen
    | succ n =>
      rw [walksFrom]
      apply List.mem_cons_of_mem
      rw [List.mem_flatMap]
      refine ⟨b, ?_, ?_⟩
      · rw [List.mem_filter]
        exact ⟨hmem b (List.mem_cons_self _ _), (List.chain'_cons.mp hchain).1⟩
      · rw [List.mem_map]
        refine ⟨b :: rest2, ?_, rfl⟩
        apply ih n b
        · simp only [List.length_cons] at hlen ⊢
          omega
        · exact (List.chain'_cons.mp hchain).2
        · exact fun x hx => hmem x (List.mem_cons_of_mem _ hx)

/-- A duplicate-free list drawn from `l` is no longer than `l`. -/
theorem nodup_length_le {p l : List String} (h : p.Nodup)
    (hs : ∀ x ∈ p, x ∈ l) : p.length ≤ l.length := by
  have h1 : p.toFinset.card = p.length := List.toFinset_card_of_nodup h
  have h2 : p.toFinset ⊆ l.toFinset := by
    intro a ha
    simp only [List.mem_toFinset] at ha ⊢
    exact hs a ha
  have h3 := Finset.card_le_card h2
  have h4 := l.toFinset_card_le
  omega

/-- The accessible subgraph is a subgraph of the original network. -/
theorem create_subgraph (g : Graph) (acc : AccessibilityData)
    (reqs : List String) : Subgraph (create_accessible_graph g acc reqs) g := by
  constructor
  · intro x hx
    rw [create_nodes] at hx
    exact (List.mem_filter.mp hx).1
  · intro e he
    rw [create_edges] at he
    exact (List.mem_filter.mp (List.mem_filter.mp he).1).1

/-- C7: every accessible subgraph is a subgraph of the network, and for
any subgraph (of a network without duplicate segments per stop pair)
containing a path from A to B, the shortest-path weight in the full
network exists and never exceeds the shortest-path weight in the
subgraph: filtering never shortens a path. -/
theorem claim_C7 (g sub : Graph) (acc : AccessibilityData)
    (reqs : List String) (A B : String) :
    Subgraph (create_accessible_graph g acc reqs) g ∧
    (Subgraph sub g → NoDupPairs g → ∀ w : ℚ,
      shortest_path_length sub A B = some w →
      ∃ w2 : ℚ, shortest_path_length g A B = some w2 ∧ w2 ≤ w) := by
  refine ⟨create_subgraph g acc reqs, ?_⟩
  intro hsub hnd w hw
  rw [shortest_path_length] at hw
  rcases Decidable.em (A ∈ sub.nodes ∧ B ∈ sub.nodes) with hmem | hmem
  case inr => rw [if_neg hmem] at hw; cases hw
  rw [if_pos hmem] at hw
  have hA : A ∈ g.nodes := hsub.1 A hmem.1
  have hB : B ∈ g.nodes := hsub.1 B hmem.2
  have hwmem : w ∈ (simple_paths sub A B).map (walkTime sub) :=
    List.min?_mem (fun a b => min_choice a b) hw
  obtain ⟨p, hp, hpw⟩ := List.mem_map.mp hwmem
  unfold simple_paths at hp
  obtain ⟨hpwalk, hpred⟩ := List.mem_filter.mp hp
  rw [Bool.and_eq_true] at hpred
  have hnodup : p.Nodup := of_decide_eq_true hpred.1
  have hlast : p.getLast? = some B := of_decide_eq_true hpred.2
  obtain ⟨rest, hpe, hchain_sub, hrestmem⟩ := walksFrom_sound sub _ A p hpwalk
  have hchain_g : List.Chain' (fun x y => (get_edge_data g x y).isSome = true) p := by
    apply List.Chain'.imp ?_ hchain_sub
    intro x y hxy
    obtain ⟨d, hd⟩ := Option.isSome_iff_exists.mp hxy
    rw [get_edge_data_subgraph hsub hnd hd]
    rfl
  have hwt : walkTime sub p = walkTime g p := walkTime_subgraph hsub hnd p hchain_sub
  have hallg : ∀ x ∈ p, x ∈ g.nodes := by
    intro x hx
    rw [hpe] at hx
    rcases List.mem_cons.mp hx with h2 | h2
    · subst h2; exact hA
    · exact hsub.1 x (hrestmem x h2)
  have hlen : p.length ≤ g.nodes.length := nodup_length_le hnodup hallg
  have hpg : p ∈ walksFrom g g.nodes.length A := by
    rw [hpe]
    apply walksFrom_complete g rest g.nodes.length A
    · rw [← hpe]; exact hlen
    · rw [← hpe]; exact hchain_g
    · intro x hx
      apply hallg
      rw [hpe]
      exact List.mem_cons_of_mem _ hx
  have hpg2 : p ∈ simple_paths g A B := by
    unfold simple_paths
    rw [List.mem_filter, Bool.and_eq_true]
    exact ⟨hpg, decide_eq_true hnodup, decide_eq_true hlast⟩
  have hwg_mem : walkTime g p ∈ (simple_paths g A B).map (walkTime g) :=
    List.mem_map_of_mem _ hpg2
  obtain ⟨w2, hw2⟩ := Option.isSome_iff_exists.mp (List.isSome_min?_of_mem hwg_mem)
  refine ⟨w2, ?_, ?_⟩
  · rw [shortest_path_length, if_pos ⟨hA, hB⟩, hw2]
  · have hle := (List.le_min?_iff (fun _ _ _ => le_min_iff) hw2).1 le_rfl _ hwg_mem
    rw [← hwt, hpw] at hle
    exact hle

/-- Witness for C7: in the triangle network, removing the intermediate
stop B leaves only the direct A-C edge of weight 3, while the full
network offers the two-hop route of weight 2. -/
theorem claim_C7_witness :
    Subgraph gTriSub gTri ∧ NoDupPairs gTri ∧
    shortest_path_length gTriSub "A" "C" = some 3 ∧
    (∃ w2 : ℚ, shortest_path_length gTri "A" "C" = some w2 ∧ w2 ≤ 3) :=
  ⟨by unfold Subgraph; decide, by unfold NoDupPairs; decide,
   by
     simp [shortest_path_length, simple_paths, walksFrom, walkTime, get_edge_data,
       gTriSub, matchesPair, List.find?, List.filter, List.flatMap],
   (claim_C7 gTri gTriSub [] [] "A" "C").2 (by unfold Subgraph; decide)
     (by unfold NoDupPairs; decide) 3
     (by
       simp [shortest_path_length, simple_paths, walksFrom, walkTime, get_edge_data,
         gTriSub, matchesPair, List.find?, List.filter, List.flatMap])⟩

end ARO
